import Mathlib

/-!
Verification of the ReAct orchestration core of the financial-ai-agent
repository (src/agent): the reasoning agent (react_agent.py), the step
coordinator (react_coordinator.py), the LangGraph workflow driver
(langgraph_workflow.py) and the analysis service
(stock_analysis_service.py).

Python strings are embedded as lists of characters (`PyStr`), and the
Python string operations used by the source (`split`, `strip`,
`startswith`, `replace`, `in`, `join`) are defined below with the same
semantics.  Values that may be Python `None` are embedded as `Option`;
code that can raise is embedded in `Except PyErr`.
-/

set_option maxRecDepth 4000

deriving instance DecidableEq for Except

/-- Python strings, embedded as lists of characters. -/
abbrev PyStr := List Char

/-- Shorthand turning a Lean string literal into a `PyStr`. -/
def pyOf (s : String) : PyStr := s.toList

/-- The characters removed by Python `str.strip()` (ASCII whitespace). -/
def pyWs (c : Char) : Bool :=
  c = ' ' || c = '\t' || c = '\n' || c = '\r' || c = '\x0b' || c = '\x0c'

/-- Python `s.strip()`: drop leading and trailing whitespace. -/
def pyStrip (s : PyStr) : PyStr :=
  (((s.dropWhile pyWs).reverse).dropWhile pyWs).reverse

/-- Python `sub in s`: contiguous-substring test. -/
def pyContains (sub : PyStr) : PyStr → Bool
  | [] => sub.isEmpty
  | c :: cs => sub.isPrefixOf (c :: cs) || pyContains sub cs

/-- Python `s.split(sep)` for the single-character separator `'\n'`,
as used by `parse_tool_usage` (`message.split("\n")`). -/
def splitLines : PyStr → List PyStr
  | [] => [[]]
  | c :: cs =>
    match splitLines cs with
    | [] => [[]]
    | l :: ls => if c = '\n' then [] :: l :: ls else (c :: l) :: ls

/-- Worker for `pySplit`, fuelled so that it reduces inside the kernel.
Scans left to right; on a separator match the separator is consumed
(non-overlapping, exactly Python `str.split`). -/
def pySplitGo (sep : PyStr) : Nat → PyStr → PyStr → List PyStr
  | 0, acc, s => [acc.reverse ++ s]
  | fuel + 1, acc, s =>
    match s with
    | [] => [acc.reverse]
    | c :: cs =>
      if sep.isPrefixOf (c :: cs) then
        acc.reverse :: pySplitGo sep fuel [] ((c :: cs).drop sep.length)
      else
        pySplitGo sep fuel (c :: acc) cs

/-- Python `s.split(sep)` for a non-empty separator, as used by
`response_content.split("Final Answer:")`. -/
def pySplit (sep s : PyStr) : List PyStr :=
  pySplitGo sep (s.length + 1) [] s

/-- Worker for `pyReplace`, fuelled so that it reduces inside the kernel. -/
def pyReplaceGo (pat rep : PyStr) : Nat → PyStr → PyStr
  | 0, s => s
  | fuel + 1, s =>
    match s with
    | [] => []
    | c :: cs =>
      if pat.isPrefixOf (c :: cs) then
        rep ++ pyReplaceGo pat rep fuel ((c :: cs).drop pat.length)
      else
        c :: pyReplaceGo pat rep fuel cs

/-- Python `s.replace(pat, rep)`: replace all non-overlapping occurrences,
left to right. -/
def pyReplace (pat rep s : PyStr) : PyStr :=
  pyReplaceGo pat rep (s.length + 1) s

/-- Python `"\n".join(parts)`. -/
def pyJoinNl (parts : List PyStr) : PyStr :=
  List.intercalate [ '\n' ] parts

/-- Python `xs[-1] if xs else None`. -/
def pyLast {α : Type} : List α → Option α
  | [] => none
  | [x] => some x
  | _ :: y :: ys => pyLast (y :: ys)

/-- Python truthiness of an optional string: `None` and `""` are falsy. -/
def pyTruthy : Option PyStr → Bool
  | none => false
  | some s => !s.isEmpty

-- The literal protocol markers of react_agent.py / react_coordinator.py.

/-- Marker literal `Action:`. -/
def kwAction : PyStr := pyOf "Action:"

/-- Marker literal `Action Input:`. -/
def kwActionInput : PyStr := pyOf "Action Input:"

/-- Marker literal `Final Answer:`. -/
def kwFinalAnswer : PyStr := pyOf "Final Answer:"

-- Sanity checks of the string primitives against Python behaviour.

example : pyStrip (pyOf "  a b  ") = pyOf "a b" := by decide
example : splitLines (pyOf "a\nb") = [pyOf "a", pyOf "b"] := by decide
example : splitLines (pyOf "") = [pyOf ""] := by decide
example : pySplit (pyOf "X") (pyOf "aXbXc") = [pyOf "a", pyOf "b", pyOf "c"] := by decide
example : pySplit (pyOf "aa") (pyOf "aaa") = [pyOf "", pyOf "a"] := by decide
example : pyReplace (pyOf "Action:") [] (pyOf "Action: x") = pyOf " x" := by decide
example : pyContains (pyOf "bc") (pyOf "abcd") = true := by decide
example : pyContains (pyOf "bd") (pyOf "abcd") = false := by decide
example : pyJoinNl [pyOf "a", pyOf "b"] = pyOf "a\nb" := by decide

/-!
## StockReActAgent.parse_tool_usage (react_agent.py, lines 59-83)

The loop keeps the *stripped* text of the last line whose stripped form
starts with `Action:` (resp. `Action Input:`, tested only in the `elif`
branch); the stored lines are then cleaned with `replace` and `strip`.
The surrounding `try/except` cannot fire: every operation is total.
-/

/-- The scanning loop of `parse_tool_usage`: `action_line` and
`input_line` are the fold state, overwritten on every match (last
match wins). -/
def scanLines : Option PyStr → Option PyStr → List PyStr → Option PyStr × Option PyStr
  | a, i, [] => (a, i)
  | a, i, l :: ls =>
    let t := pyStrip l
    if kwAction.isPrefixOf t then scanLines (some t) i ls
    else if kwActionInput.isPrefixOf t then scanLines a (some t) ls
    else scanLines a i ls

/-- `StockReActAgent.parse_tool_usage`: returns `(None, None)` unless the
message contains `Action:` and the line scan found both marker lines;
otherwise strips the markers out of the recorded lines. -/
def parse_tool_usage (message : PyStr) : Option PyStr × Option PyStr :=
  if pyContains kwAction message = false then (none, none)
  else
    match scanLines none none (splitLines message) with
    | (some action_line, some input_line) =>
      (some (pyStrip (pyReplace kwAction [] action_line)),
       some (pyStrip (pyReplace kwActionInput [] input_line)))
    | _ => (none, none)

-- Sanity checks against the spec's §8 examples.
example :
    parse_tool_usage (pyOf "Action: chat_llm\nAction Input: hello") =
      (some (pyOf "chat_llm"), some (pyOf "hello")) := by decide
example : parse_tool_usage (pyOf "no markers here") = (none, none) := by decide
example :
    parse_tool_usage (pyOf "Action: a\nAction Input: x\nAction: b\nAction Input: y") =
      (some (pyOf "b"), some (pyOf "y")) := by decide
example :
    parse_tool_usage (pyOf "Action: chat_llm\nno input line") = (none, none) := by decide

/-!
## Data model (query_context.py) and reasoning agent (react_agent.py)
-/

/-- One role-tagged conversation turn.  `content` is `Option` because the
system turn built by `reason` carries Python `None` (see
`getSystemPrompt`). -/
structure Message where
  role : PyStr
  content : Option PyStr
deriving DecidableEq

/-- A tool invocation result.  The providers return free-form dicts whose
internal shape no verified claim inspects; the payload is kept opaque. -/
structure ToolRes where
  payload : PyStr
deriving DecidableEq

/-- The Python exceptions that the embedded code can raise. -/
inductive PyErr where
  | typeError (msg : PyStr)
  | keyError (key : PyStr)
  | unboundLocalError (name : PyStr)
  | toolError (msg : PyStr)
deriving DecidableEq

/-- `AgentState` (query_context.py, lines 32-42). -/
structure AgentState where
  messages : List Message
  current_step : Int
  max_steps : Int
  tools_used : List PyStr
  intermediate_results : List ToolRes
  final_answer : Option PyStr
deriving DecidableEq

/-- The dict returned by `StockReActAgent.reason`. -/
structure ReasonResult where
  messages : List Message
  current_step : Int
  final_answer : Option PyStr
deriving DecidableEq

/-- Role literal `system`. -/
def kwSystem : PyStr := pyOf "system"

/-- Role literal `user`. -/
def kwUser : PyStr := pyOf "user"

/-- Role literal `assistant`. -/
def kwAssistant : PyStr := pyOf "assistant"

/-- `StockReActAgent._get_system_prompt` (react_agent.py, lines 114-199).
The method body is a bare `return` statement: the protocol-specification
string literal that follows it sits at class-body indentation and is an
orphaned expression, so the method returns Python `None`. -/
def getSystemPrompt : Option PyStr := none

/-- `StockReActAgent.reason`, success path (react_agent.py, lines 35-48),
parametrised by the value the system-prompt call returns so that the
behaviour intended by the spec (a string prompt) can be compared with
the behaviour of the code (`None`). -/
def reasonP (sp : Option PyStr) (s : AgentState) : ReasonResult :=
  { messages := { role := kwSystem, content := sp } :: s.messages
    current_step := s.current_step
    final_answer := none }

/-- `StockReActAgent.reason` exactly as coded: the prepended system turn
carries `getSystemPrompt = None`. -/
def reason (s : AgentState) : ReasonResult :=
  reasonP getSystemPrompt s

/-- The view of the LangGraph state dict that `reason` reads: the two
keys it subscripts may be absent. -/
structure StateDict where
  messagesKey : Option (List Message)
  currentStepKey : Option Int
deriving DecidableEq

/-- Dict key literal `messages`. -/
def kwMessages : PyStr := pyOf "messages"

/-- Dict key literal `current_step`. -/
def kwCurrentStep : PyStr := pyOf "current_step"

/-- `StockReActAgent.reason` on a state dict, including its `try/except`
(react_agent.py, lines 35-57).  If `state["messages"]` raises KeyError,
the handler evaluates `state["messages"]` again and the KeyError
escapes; if `state["current_step"]` raises KeyError, the handler
evaluates `current_step + 1` with `current_step` never assigned and an
UnboundLocalError escapes.  Nothing after the two subscripts can raise,
so the degraded-state return in the handler is unreachable. -/
def reasonDict (s : StateDict) : Except PyErr ReasonResult :=
  match s.messagesKey with
  | none => .error (.keyError kwMessages)
  | some msgs =>
    match s.currentStepKey with
    | none => .error (.unboundLocalError kwCurrentStep)
    | some c =>
      .ok { messages := { role := kwSystem, content := getSystemPrompt } :: msgs
            current_step := c
            final_answer := none }

example :
    reasonDict { messagesKey := some [], currentStepKey := some 0 } =
      .ok (reason { messages := [], current_step := 0, max_steps := 10,
                    tools_used := [], intermediate_results := [], final_answer := none }) := by
  decide

/-!
## ReActCoordinator._step (react_coordinator.py, lines 47-102)

The chat provider is an external service: it is embedded as a function
from the flattened prompt to the reply text.  The registered tool map is
embedded as its key list plus an executor returning `Except` (every tool
adapter catches, logs and *re-raises*, and `BaseTool.execute` adds no
handling, so a provider failure propagates).  `format_tool_result` only
renders the observation text shown to the model; it is kept abstract
because no verified claim depends on the rendered text.
-/

/-- The error raised by `"\n".join(...)` when a content is `None`. -/
def joinTypeErrMsg : PyStr := pyOf "expected str instance, NoneType found"

/-- The list comprehension over `msg["content"]` followed by
`"\n".join(...)`: raises TypeError at the first `None` content. -/
def joinContents : List Message → Except PyErr PyStr
  | [] => .ok []
  | m :: ms =>
    match m.content with
    | none => .error (.typeError joinTypeErrMsg)
    | some c => (joinContents ms).map (fun rest => if ms.isEmpty then c else c ++ '\n' :: rest)

example :
    joinContents [{ role := kwUser, content := some (pyOf "a") },
                  { role := kwUser, content := some (pyOf "b") }] = .ok (pyOf "a\nb") := by
  decide
example :
    joinContents [{ role := kwSystem, content := none },
                  { role := kwUser, content := some (pyOf "b") }] =
      .error (.typeError joinTypeErrMsg) := by decide

/-- `ReActCoordinator._step`, parametrised by the system-prompt value
`sp` fed to `reason` (the code passes `getSystemPrompt = none`; the
value intended by the spec is a string), the chat provider, and the
registered tool map (key list, executor, observation formatter). -/
def stepP (sp : Option PyStr) (chat : PyStr → PyStr) (toolNames : List PyStr)
    (toolExec : PyStr → PyStr → Except PyErr ToolRes)
    (fmt : PyStr → ToolRes → PyStr) (s : AgentState) : Except PyErr AgentState :=
  let r := reasonP sp s
  let conversation := r.messages
  let current_step := r.current_step
  if pyTruthy r.final_answer then
    .ok { s with messages := conversation
                 current_step := current_step + 1
                 final_answer := r.final_answer }
  else
    (joinContents conversation).bind fun prompt =>
    let response := chat prompt
    let messages := conversation ++ [{ role := kwAssistant, content := some response }]
    if pyContains kwFinalAnswer response then
      .ok { s with messages := messages
                   current_step := current_step + 1
                   final_answer := some (pyStrip ((pySplit kwFinalAnswer response).getLastD [])) }
    else
      match parse_tool_usage response with
      | (some tool_name, some tool_input) =>
        if !tool_name.isEmpty && toolNames.contains tool_name then
          (toolExec tool_name tool_input).map fun tool_result =>
          { s with messages := messages ++
                     [{ role := kwUser, content := some (fmt tool_name tool_result) }]
                   current_step := current_step + 1
                   tools_used := s.tools_used ++ [tool_name]
                   intermediate_results := s.intermediate_results ++ [tool_result] }
        else
          .ok { s with messages := messages, current_step := current_step + 1 }
      | _ => .ok { s with messages := messages, current_step := current_step + 1 }

/-- `ReActCoordinator._step` exactly as coded: `reason` is called with
the `None` system prompt that `_get_system_prompt` returns. -/
def step (chat : PyStr → PyStr) (toolNames : List PyStr)
    (toolExec : PyStr → PyStr → Except PyErr ToolRes)
    (fmt : PyStr → ToolRes → PyStr) (s : AgentState) : Except PyErr AgentState :=
  stepP getSystemPrompt chat toolNames toolExec fmt s

/-!
## Workflow driver (langgraph_workflow.py, lines 19-49)
-/

/-- Literal `end`. -/
def kwEnd : PyStr := pyOf "end"

/-- Literal `continue`. -/
def kwContinue : PyStr := pyOf "continue"

/-- The TypeError raised by `"Action:" in None`. -/
def inNoneTypeErrMsg : PyStr := pyOf "argument of type NoneType is not iterable"

/-- `should_continue` (langgraph_workflow.py, lines 21-35).  It looks at
`messages[-1]` — the most recent message of *any* role — and tests its
`content` for the substring `Action:`; a `None` content would raise a
TypeError inside the `in` test. -/
def should_continue (s : AgentState) : Except PyErr PyStr :=
  let last_message := pyLast s.messages
  if pyTruthy s.final_answer then .ok kwEnd
  else if s.current_step ≥ s.max_steps then .ok kwEnd
  else
    match last_message with
    | some m =>
      match m.content with
      | none => .error (.typeError inNoneTypeErrMsg)
      | some c => if pyContains kwAction c then .ok kwContinue else .ok kwEnd
    | none => .ok kwEnd

/-- The compiled LangGraph loop: run the agent node once, then follow the
conditional edge; `continue` re-enters the agent node, anything else
ends the stream.  `fuel` bounds the unrolling (the graph engine's own
recursion limit); an exception in a node aborts the run. -/
def driverP (sp : Option PyStr) (chat : PyStr → PyStr) (toolNames : List PyStr)
    (toolExec : PyStr → PyStr → Except PyErr ToolRes)
    (fmt : PyStr → ToolRes → PyStr) : Nat → AgentState → Except PyErr AgentState
  | 0, s => .ok s
  | fuel + 1, s =>
    (stepP sp chat toolNames toolExec fmt s).bind fun s1 =>
      (should_continue s1).bind fun d =>
        if d = kwContinue then driverP sp chat toolNames toolExec fmt fuel s1
        else .ok s1

/-- `n`-fold iteration of the step transition (the "after N orchestrator
steps" reading of the spec's §8 property). -/
def stepIterP (sp : Option PyStr) (chat : PyStr → PyStr) (toolNames : List PyStr)
    (toolExec : PyStr → PyStr → Except PyErr ToolRes)
    (fmt : PyStr → ToolRes → PyStr) : Nat → AgentState → Except PyErr AgentState
  | 0, s => .ok s
  | n + 1, s =>
    (stepP sp chat toolNames toolExec fmt s).bind
      (stepIterP sp chat toolNames toolExec fmt n)

/-- The initial state built by `ReActWorkflow.run` (langgraph_workflow.py,
lines 54-60): one seed user turn, step 0, budget 10. -/
def initialState (query : PyStr) : AgentState :=
  { messages := [{ role := kwUser, content := some query }]
    current_step := 0
    max_steps := 10
    tools_used := []
    intermediate_results := []
    final_answer := none }

/-!
## StockAnalysisService.analyze (stock_analysis_service.py, lines 18-62)

`reshape` models the reshaping of the terminal workflow state into the
response payload (lines 28-50, inside the `try`).
-/

/-- The answer/metadata payload returned by `analyze`. -/
structure AnalyzeResult where
  answer : PyStr
  success : Bool
  session_id : Option PyStr
  steps : Nat
  tools_used : List PyStr
  intermediate_results : List ToolRes
deriving DecidableEq

/-- The synthesised answer: `content + "\n"` accumulated over every turn
whose role is not `user`; a `None` content raises a TypeError. -/
def combineNonUser : List Message → Except PyErr PyStr
  | [] => .ok []
  | m :: ms =>
    if m.role = kwUser then combineNonUser ms
    else
      match m.content with
      | none => .error (.typeError joinTypeErrMsg)
      | some c => (combineNonUser ms).map (fun rest => c ++ '\n' :: rest)

/-- The reshaping of the terminal state done by `analyze`:
`answer = final_answer or combined_answer.strip()` plus the metadata
dict.  There is no non-empty fallback string. -/
def reshape (session_id : Option PyStr) (fs : AgentState) : Except PyErr AnalyzeResult :=
  (combineNonUser fs.messages).map fun combined_answer =>
    { answer := if pyTruthy fs.final_answer then fs.final_answer.getD []
                else pyStrip combined_answer
      success := true
      session_id := session_id
      steps := fs.messages.length
      tools_used := fs.tools_used
      intermediate_results := fs.intermediate_results }

/-!
## Lemmas about the string primitives and the parser
-/

/-- `pyContains` decides contiguous-substring containment. -/
lemma pyContains_iff (sub s : PyStr) : pyContains sub s = true ↔ sub <:+: s := by
  induction s with
  | nil => simp [pyContains, List.isEmpty_iff, List.infix_nil]
  | cons c cs ih =>
    simp [pyContains, List.infix_cons_iff, List.isPrefixOf_iff_prefix, ih]

/-- `splitLines` never returns the empty list. -/
lemma splitLines_ne_nil (s : PyStr) : splitLines s ≠ [] := by
  cases s with
  | nil => simp [splitLines]
  | cons c cs =>
    unfold splitLines
    cases h : splitLines cs with
    | nil => simp
    | cons l ls => by_cases hc : c = '\n' <;> simp [hc]

/-- The first line produced by `splitLines` is a prefix of the input. -/
lemma splitLines_head_prefix (s : PyStr) : (splitLines s).headD [] <+: s := by
  induction s with
  | nil => simp [splitLines]
  | cons c cs ih =>
    cases h : splitLines cs with
    | nil => exact absurd h (splitLines_ne_nil cs)
    | cons l ls =>
      unfold splitLines
      rw [h]
      by_cases hc : c = '\n'
      · simp [hc]
      · simp only [if_neg hc, List.headD_cons]
        rw [h] at ih
        simp only [List.headD_cons] at ih
        obtain ⟨t, ht⟩ := ih
        exact ⟨t, by simp [← ht]⟩

/-- Every line produced by `splitLines` is a contiguous substring of the
input. -/
lemma mem_splitLines_within {p s : PyStr} (h : p ∈ splitLines s) : p <:+: s := by
  induction s with
  | nil =>
    simp [splitLines] at h
    simp [h]
  | cons c cs ih =>
    cases hsp : splitLines cs with
    | nil => exact absurd hsp (splitLines_ne_nil cs)
    | cons l ls =>
      unfold splitLines at h
      rw [hsp] at h
      by_cases hc : c = '\n'
      · simp only [if_pos hc] at h
        rcases List.mem_cons.mp h with h1 | h2
        · simp [h1]
        · exact List.infix_cons (ih (by rw [hsp]; exact h2))
      · simp only [if_neg hc] at h
        rcases List.mem_cons.mp h with h1 | h2
        · subst h1
          have hl : l <+: cs := by
            have := splitLines_head_prefix cs
            rw [hsp] at this
            simpa using this
          obtain ⟨t, ht⟩ := hl
          exact List.IsPrefix.isInfix ⟨t, by simp [← ht]⟩
        · exact List.infix_cons (ih (by rw [hsp]; exact List.mem_cons_of_mem l h2))

/-- `strip` returns a contiguous substring of its argument. -/
lemma pyStrip_within (l : PyStr) : pyStrip l <:+: l := by
  unfold pyStrip
  have h1 : l.dropWhile pyWs <:+ l := List.dropWhile_suffix pyWs
  have h2 : ((l.dropWhile pyWs).reverse.dropWhile pyWs).reverse <+: l.dropWhile pyWs := by
    rw [← List.reverse_suffix]
    simpa using List.dropWhile_suffix (l := (l.dropWhile pyWs).reverse) pyWs
  exact List.IsInfix.trans (List.IsPrefix.isInfix h2) (List.IsSuffix.isInfix h1)

/-- A marker that starts the stripped form of a line occurs inside the
line itself. -/
lemma marker_infix_of_prefix_strip {kw l : PyStr}
    (h : kw.isPrefixOf (pyStrip l) = true) : kw <:+: l :=
  List.IsInfix.trans
    (List.IsPrefix.isInfix (List.isPrefixOf_iff_prefix.mp h)) (pyStrip_within l)

/-- No line can start with both `Action:` and `Action Input:`. -/
lemma markers_disjoint (t : PyStr) :
    ¬(kwAction.isPrefixOf t = true ∧ kwActionInput.isPrefixOf t = true) := by
  rintro ⟨h1, h2⟩
  rw [List.isPrefixOf_iff_prefix] at h1 h2
  have hp : kwAction <+: kwActionInput :=
    List.prefix_of_prefix_length_le h1 h2 (by decide)
  rw [← List.isPrefixOf_iff_prefix] at hp
  exact absurd hp (by decide)

/-- The stripped text of the LAST line (in order) whose stripped form
starts with the marker `kw` — the reading of the claim's "the LAST line
bearing each marker". -/
def lastMarkerLine (kw : PyStr) : List PyStr → Option PyStr
  | [] => none
  | l :: ls =>
    match lastMarkerLine kw ls with
    | some r => some r
    | none => if kw.isPrefixOf (pyStrip l) then some (pyStrip l) else none

/-- Unfolding equation for `lastMarkerLine` on a cons cell. -/
lemma lastMarkerLine_cons (kw l : PyStr) (ls : List PyStr) :
    lastMarkerLine kw (l :: ls) =
      match lastMarkerLine kw ls with
      | some r => some r
      | none => if kw.isPrefixOf (pyStrip l) then some (pyStrip l) else none := rfl

/-- The scanning loop computes exactly the last marker line of each kind
(later matches overwrite earlier ones). -/
lemma scanLines_eq (ls : List PyStr) : ∀ a i, scanLines a i ls =
    ((lastMarkerLine kwAction ls).elim a some,
     (lastMarkerLine kwActionInput ls).elim i some) := by
  induction ls with
  | nil => intro a i; simp [scanLines, lastMarkerLine]
  | cons l ls ih =>
    intro a i
    by_cases hA : kwAction.isPrefixOf (pyStrip l) = true
    · have hI : kwActionInput.isPrefixOf (pyStrip l) = false := by
        rcases h' : kwActionInput.isPrefixOf (pyStrip l) with _ | _
        · rfl
        · exact absurd ⟨hA, h'⟩ (markers_disjoint (pyStrip l))
      rw [show scanLines a i (l :: ls) = scanLines (some (pyStrip l)) i ls from by
            simp [scanLines, hA]]
      rw [ih]
      simp only [lastMarkerLine_cons]
      cases hL : lastMarkerLine kwAction ls <;>
        cases hL' : lastMarkerLine kwActionInput ls <;> simp [hA, hI]
    · have hA' : kwAction.isPrefixOf (pyStrip l) = false := Bool.eq_false_iff.mpr hA
      by_cases hB : kwActionInput.isPrefixOf (pyStrip l) = true
      · rw [show scanLines a i (l :: ls) = scanLines a (some (pyStrip l)) ls from by
              simp [scanLines, hA', hB]]
        rw [ih]
        simp only [lastMarkerLine_cons]
        cases hL : lastMarkerLine kwAction ls <;>
          cases hL' : lastMarkerLine kwActionInput ls <;> simp [hA', hB]
      · have hB' : kwActionInput.isPrefixOf (pyStrip l) = false := Bool.eq_false_iff.mpr hB
        rw [show scanLines a i (l :: ls) = scanLines a i ls from by
              simp [scanLines, hA', hB']]
        rw [ih]
        simp only [lastMarkerLine_cons]
        cases hL : lastMarkerLine kwAction ls <;>
          cases hL' : lastMarkerLine kwActionInput ls <;> simp [hA', hB']

/-- A found marker line is a member of the line list (with the marker as
prefix of its stripped form). -/
lemma lastMarkerLine_mem {kw : PyStr} :
    ∀ {ls : List PyStr} {a : PyStr}, lastMarkerLine kw ls = some a →
      ∃ l ∈ ls, kw.isPrefixOf (pyStrip l) = true ∧ a = pyStrip l := by
  intro ls
  induction ls with
  | nil => intro a h; simp [lastMarkerLine] at h
  | cons l ls ih =>
    intro a h
    rw [lastMarkerLine_cons] at h
    cases hL : lastMarkerLine kw ls with
    | some r =>
      rw [hL] at h
      have ha : a = r := (Option.some.inj h).symm
      obtain ⟨l', hmem, hpre, heq⟩ := ih hL
      exact ⟨l', List.mem_cons_of_mem l hmem, hpre, by rw [ha]; exact heq⟩
    | none =>
      rw [hL] at h
      by_cases hp : kw.isPrefixOf (pyStrip l) = true
      · simp only [if_pos hp] at h
        exact ⟨l, List.mem_cons_self l ls, hp, (Option.some.inj h).symm⟩
      · simp [hp] at h

/-- Unfolding equation for `splitLines` on a cons cell. -/
lemma splitLines_cons_eq (c : Char) (cs : PyStr) :
    splitLines (c :: cs) =
      match splitLines cs with
      | [] => [[]]
      | l :: ls => if c = '\n' then [] :: l :: ls else (c :: l) :: ls := rfl

/-- Splitting past a newline-free block keeps the block glued to the
first line of the remainder. -/
lemma splitLines_append_no_nl {xs : PyStr} (hx : '\n' ∉ xs) (ys : PyStr) :
    splitLines (xs ++ ys) = (xs ++ (splitLines ys).headD []) :: (splitLines ys).tail := by
  induction xs with
  | nil =>
    cases h : splitLines ys with
    | nil => exact absurd h (splitLines_ne_nil ys)
    | cons l ls => simp [h]
  | cons c cs ih =>
    have hc : c ≠ '\n' := fun h => hx (by simp [h])
    have hcs : '\n' ∉ cs := fun h => hx (List.mem_cons_of_mem _ h)
    rw [List.cons_append, splitLines_cons_eq, ih hcs]
    simp [hc]

/-- A newline-free string is a single line. -/
lemma splitLines_no_nl {zs : PyStr} (h : '\n' ∉ zs) : splitLines zs = [zs] := by
  have h2 := splitLines_append_no_nl h []
  simp only [List.append_nil] at h2
  simpa [splitLines] using h2

/-- Leading spaces are invisible to `dropWhile pyWs`. -/
lemma dropWhile_ws_replicate (k : Nat) (l : PyStr) :
    List.dropWhile pyWs (List.replicate k ' ' ++ l) = List.dropWhile pyWs l := by
  induction k with
  | zero => simp
  | succ n ih => simp [List.replicate_succ, List.dropWhile_cons, pyWs, ih]

/-- `strip` erases an indentation prefix. -/
lemma pyStrip_replicate (k : Nat) (l : PyStr) :
    pyStrip (List.replicate k ' ' ++ l) = pyStrip l := by
  unfold pyStrip
  rw [dropWhile_ws_replicate]

/-- C4: `parse_tool_usage` yields `(None, None)` exactly when one of the
two marker lines is absent, and otherwise returns the stripped tool name
and input taken from the LAST line bearing each marker (last-wins), as
on the spec's concrete examples. -/
theorem c4_parse_last_wins :
    (∀ m : PyStr,
      (lastMarkerLine kwAction (splitLines m) = none ∨
        lastMarkerLine kwActionInput (splitLines m) = none) →
      parse_tool_usage m = (none, none))
  ∧ (∀ m a i : PyStr,
      lastMarkerLine kwAction (splitLines m) = some a →
      lastMarkerLine kwActionInput (splitLines m) = some i →
      parse_tool_usage m =
        (some (pyStrip (pyReplace kwAction [] a)),
         some (pyStrip (pyReplace kwActionInput [] i))))
  ∧ parse_tool_usage (pyOf "Action: a\nAction Input: x\nAction: b\nAction Input: y") =
      (some (pyOf "b"), some (pyOf "y"))
  ∧ parse_tool_usage (pyOf "no markers here") = (none, none) := by
  refine ⟨?_, ?_, by decide, by decide⟩
  · intro m h
    unfold parse_tool_usage
    by_cases hc : pyContains kwAction m = false
    · simp [hc]
    · rw [if_neg hc, scanLines_eq]
      rcases h with h | h <;> rw [h] <;>
        cases h2 : lastMarkerLine kwActionInput (splitLines m) <;>
          cases h3 : lastMarkerLine kwAction (splitLines m) <;> simp [h2, h3]
  · intro m a i ha hi
    obtain ⟨l, hmem, hpre, _⟩ := lastMarkerLine_mem ha
    have hinf : kwAction <:+: m :=
      List.IsInfix.trans (marker_infix_of_prefix_strip hpre) (mem_splitLines_within hmem)
    have hc : pyContains kwAction m = true := (pyContains_iff _ _).mpr hinf
    unfold parse_tool_usage
    rw [if_neg (by simp [hc]), scanLines_eq, ha, hi]
    simp

/-- Witness for C4 at the spec's own two-`Action:` example. -/
theorem c4_parse_last_wins_witness :
    parse_tool_usage (pyOf "Action: a\nAction Input: x\nAction: b\nAction Input: y") =
      (some (pyStrip (pyReplace kwAction [] (pyOf "Action: b"))),
       some (pyStrip (pyReplace kwActionInput [] (pyOf "Action Input: y")))) :=
  c4_parse_last_wins.2.1 _ _ _ (by decide) (by decide)

/-- C10: marker recognition strips each line first, so arbitrarily
indented `Action:` / `Action Input:` lines are still recognized and the
extracted tool name is unchanged. -/
theorem c10_indented_action_recognized (k j : Nat) :
    parse_tool_usage (List.replicate k ' ' ++ pyOf "Action: chat_llm" ++
        '\n' :: (List.replicate j ' ' ++ pyOf "Action Input: x")) =
      (some (pyOf "chat_llm"), some (pyOf "x")) := by
  have h1 : '\n' ∉ (List.replicate k ' ' ++ pyOf "Action: chat_llm" : PyStr) := by
    intro hmem
    rcases List.mem_append.mp hmem with h | h
    · exact absurd (List.eq_of_mem_replicate h) (by decide)
    · exact absurd h (by decide)
  have h2 : '\n' ∉ (List.replicate j ' ' ++ pyOf "Action Input: x" : PyStr) := by
    intro hmem
    rcases List.mem_append.mp hmem with h | h
    · exact absurd (List.eq_of_mem_replicate h) (by decide)
    · exact absurd h (by decide)
  have hsplit : splitLines (List.replicate k ' ' ++ pyOf "Action: chat_llm" ++
      '\n' :: (List.replicate j ' ' ++ pyOf "Action Input: x")) =
      [List.replicate k ' ' ++ pyOf "Action: chat_llm",
       List.replicate j ' ' ++ pyOf "Action Input: x"] := by
    rw [splitLines_append_no_nl h1, splitLines_cons_eq, splitLines_no_nl h2]
    simp
  have hstrip1 : pyStrip (List.replicate k ' ' ++ pyOf "Action: chat_llm") =
      pyOf "Action: chat_llm" := by rw [pyStrip_replicate]; decide
  have hstrip2 : pyStrip (List.replicate j ' ' ++ pyOf "Action Input: x") =
      pyOf "Action Input: x" := by rw [pyStrip_replicate]; decide
  have hc : pyContains kwAction (List.replicate k ' ' ++ pyOf "Action: chat_llm" ++
      '\n' :: (List.replicate j ' ' ++ pyOf "Action Input: x")) = true := by
    refine (pyContains_iff _ _).mpr
      ⟨List.replicate k ' ',
       pyOf " chat_llm" ++ '\n' :: (List.replicate j ' ' ++ pyOf "Action Input: x"), ?_⟩
    have hact : pyOf "Action: chat_llm" = kwAction ++ pyOf " chat_llm" := by decide
    rw [hact]
    simp
  unfold parse_tool_usage
  rw [if_neg (by rw [hc]; simp), hsplit, scanLines_eq]
  simp only [lastMarkerLine_cons, lastMarkerLine, hstrip1, hstrip2]
  norm_num [show kwAction.isPrefixOf (pyOf "Action: chat_llm") = true from by decide,
    show kwAction.isPrefixOf (pyOf "Action Input: x") = false from by decide,
    show kwActionInput.isPrefixOf (pyOf "Action Input: x") = true from by decide]
  decide

/-!
## Claims about the reasoning layer
-/

/-- C6: the code prepends one system turn and leaves everything else
unchanged (`current_step` untouched, `final_answer` unset, no model
call), but the prepended turn's content is Python `None` — the bare
`return` in `_get_system_prompt` orphans the protocol-specification
string literal — not the §6 protocol text the spec describes. -/
theorem c6_reason_prepends_none_prompt :
    getSystemPrompt = none
  ∧ (∀ s : AgentState,
      reason s =
        { messages := { role := kwSystem, content := none } :: s.messages
          current_step := s.current_step
          final_answer := none }) := by
  exact ⟨rfl, fun s => rfl⟩

/-- C7: `reason` is not exception-free.  When an internal failure occurs
(a missing state key — the only fallible operations in the `try` body
are the two subscripts), the `except` handler itself raises instead of
returning the degraded state: a missing `messages` key re-raises
KeyError from the handler's own `state["messages"]`, and a missing
`current_step` key makes the handler's `current_step + 1` hit an
unbound local.  On intact states no failure occurs at all, so the
degraded-state path is unreachable. -/
theorem c7_reason_error_handler_raises :
    reasonDict { messagesKey := none, currentStepKey := some 0 } =
      .error (.keyError kwMessages)
  ∧ reasonDict { messagesKey := some [{ role := kwUser, content := some (pyOf "Hi") }],
                 currentStepKey := none } =
      .error (.unboundLocalError kwCurrentStep)
  ∧ (∀ (msgs : List Message) (c : Int),
      reasonDict { messagesKey := some msgs, currentStepKey := some c } =
        .ok { messages := { role := kwSystem, content := none } :: msgs
              current_step := c
              final_answer := none }) := by
  exact ⟨rfl, rfl, fun msgs c => rfl⟩

/-!
## Claims about the coordinator step
-/

/-- Dummy tool executor: every tool invocation fails. -/
def noTools : PyStr → PyStr → Except PyErr ToolRes := fun _ _ => .error (.toolError [])

/-- Dummy observation formatter. -/
def noFmt : PyStr → ToolRes → PyStr := fun _ _ => []

/-- Any state returned by a step (with a string system prompt) has the
step counter incremented by exactly one and the budget unchanged. -/
lemma stepP_some_ok_inc {sp : PyStr} {chat : PyStr → PyStr} {tn : List PyStr}
    {te : PyStr → PyStr → Except PyErr ToolRes} {fmt : PyStr → ToolRes → PyStr}
    {s s' : AgentState} (h : stepP (some sp) chat tn te fmt s = .ok s') :
    s'.current_step = s.current_step + 1 ∧ s'.max_steps = s.max_steps := by
  simp only [stepP, reasonP, pyTruthy, Bool.false_eq_true, if_false] at h
  cases hj : joinContents ({ role := kwSystem, content := some sp } :: s.messages) with
  | error e => rw [hj] at h; simp [Except.bind] at h
  | ok p =>
    rw [hj] at h
    simp only [Except.bind] at h
    by_cases hfa : pyContains kwFinalAnswer (chat p) = true
    · rw [if_pos hfa] at h
      obtain rfl := Except.ok.inj h
      exact ⟨rfl, rfl⟩
    · rw [if_neg hfa] at h
      split at h
      · rename_i tname tinput heq
        split at h
        · cases hte : te tname tinput with
          | error e => rw [hte] at h; simp [Except.map] at h
          | ok t =>
            rw [hte] at h
            simp only [Except.map] at h
            obtain rfl := Except.ok.inj h
            exact ⟨rfl, rfl⟩
        · obtain rfl := Except.ok.inj h
          exact ⟨rfl, rfl⟩
      · obtain rfl := Except.ok.inj h
        exact ⟨rfl, rfl⟩

/-- Any state returned by a step whose model reply carries no
`Final Answer:` marker keeps `final_answer` unchanged. -/
lemma stepP_some_ok_final {sp reply : PyStr} {tn : List PyStr}
    {te : PyStr → PyStr → Except PyErr ToolRes} {fmt : PyStr → ToolRes → PyStr}
    {s s' : AgentState} (hm : pyContains kwFinalAnswer reply = false)
    (h : stepP (some sp) (fun _ => reply) tn te fmt s = .ok s') :
    s'.final_answer = s.final_answer := by
  simp only [stepP, reasonP, pyTruthy, Bool.false_eq_true, if_false] at h
  cases hj : joinContents ({ role := kwSystem, content := some sp } :: s.messages) with
  | error e => rw [hj] at h; simp [Except.bind] at h
  | ok p =>
    rw [hj] at h
    simp only [Except.bind, hm, Bool.false_eq_true, if_false] at h
    split at h
    · rename_i tname tinput heq
      split at h
      · cases hte : te tname tinput with
        | error e => rw [hte] at h; simp [Except.map] at h
        | ok t =>
          rw [hte] at h
          simp only [Except.map] at h
          obtain rfl := Except.ok.inj h
          rfl
      · obtain rfl := Except.ok.inj h
        rfl
    · obtain rfl := Except.ok.inj h
      rfl

/-- Iterated steps add their count to the step counter. -/
lemma stepIterP_ok_add {sp : PyStr} {chat : PyStr → PyStr} {tn : List PyStr}
    {te : PyStr → PyStr → Except PyErr ToolRes} {fmt : PyStr → ToolRes → PyStr} :
    ∀ {n : Nat} {s s' : AgentState},
      stepIterP (some sp) chat tn te fmt n s = .ok s' →
      s'.current_step = s.current_step + (n : Int) := by
  intro n
  induction n with
  | zero =>
    intro s s' h
    obtain rfl := Except.ok.inj h
    simp
  | succ n ih =>
    intro s s' h
    simp only [stepIterP] at h
    cases hstep : stepP (some sp) chat tn te fmt s with
    | error e => rw [hstep] at h; simp [Except.bind] at h
    | ok s1 =>
      rw [hstep] at h
      simp only [Except.bind] at h
      have h1 := (stepP_some_ok_inc hstep).1
      have h2 := ih h
      rw [h2, h1]
      push_cast
      ring

/-- A `continue` verdict is only produced strictly under budget. -/
lemma should_continue_continue {s : AgentState}
    (h : should_continue s = .ok kwContinue) : s.current_step < s.max_steps := by
  unfold should_continue at h
  split at h
  · exact absurd (Except.ok.inj h) (by decide)
  · split at h
    · exact absurd (Except.ok.inj h) (by decide)
    · rename_i hge
      exact lt_of_not_ge hge

/-- The driver loop never lets the step counter pass the budget when it
starts strictly under it. -/
lemma driverP_bound {sp : PyStr} {chat : PyStr → PyStr} {tn : List PyStr}
    {te : PyStr → PyStr → Except PyErr ToolRes} {fmt : PyStr → ToolRes → PyStr} :
    ∀ {fuel : Nat} {s s' : AgentState},
      s.current_step < s.max_steps →
      driverP (some sp) chat tn te fmt fuel s = .ok s' →
      s'.current_step ≤ s'.max_steps := by
  intro fuel
  induction fuel with
  | zero =>
    intro s s' hlt h
    obtain rfl := Except.ok.inj h
    exact le_of_lt hlt
  | succ fuel ih =>
    intro s s' hlt h
    simp only [driverP] at h
    cases hstep : stepP (some sp) chat tn te fmt s with
    | error e => rw [hstep] at h; simp [Except.bind] at h
    | ok s1 =>
      rw [hstep] at h
      simp only [Except.bind] at h
      obtain ⟨hinc, hmax⟩ := stepP_some_ok_inc hstep
      have hb : s1.current_step ≤ s1.max_steps := by
        rw [hinc, hmax]
        omega
      cases hsc : should_continue s1 with
      | error e => rw [hsc] at h; simp [Except.bind] at h
      | ok d =>
        rw [hsc] at h
        simp only [Except.bind] at h
        by_cases hd : d = kwContinue
        · rw [if_pos hd] at h
          subst hd
          exact ih (should_continue_continue hsc) h
        · rw [if_neg hd] at h
          obtain rfl := Except.ok.inj h
          exact hb

/-- The terminal state of a one-step demonstration run used by the C1
witness. -/
def c1TermState : AgentState :=
  { messages := [{ role := kwSystem, content := some (pyOf "P") },
                 { role := kwUser, content := some (pyOf "Hi") },
                 { role := kwAssistant, content := some (pyOf "hello") }]
    current_step := 1
    max_steps := 10
    tools_used := []
    intermediate_results := []
    final_answer := none }

/-- C1: as coded, `_step` never returns a state at all — on every input
it raises a TypeError while joining the prompt, because the system turn
prepended by `reason` carries the `None` produced by
`_get_system_prompt` (first conjunct evaluates the faithful embedding
on the initial state of a run).  With the string system prompt the spec
intends, the counting property holds on every path: each returned state
has `current_step` incremented by exactly one, `n` iterated steps add
exactly `n`, and a driver run started strictly under budget never
exceeds `max_steps`. -/
theorem c1_step_increment :
    step (fun _ => pyOf "hello") [] noTools noFmt (initialState (pyOf "Hi")) =
      .error (.typeError joinTypeErrMsg)
  ∧ (∀ (sp : PyStr) (chat : PyStr → PyStr) (tn : List PyStr)
      (te : PyStr → PyStr → Except PyErr ToolRes) (fmt : PyStr → ToolRes → PyStr)
      (s s' : AgentState),
      stepP (some sp) chat tn te fmt s = .ok s' →
      s'.current_step = s.current_step + 1)
  ∧ (∀ (sp : PyStr) (chat : PyStr → PyStr) (tn : List PyStr)
      (te : PyStr → PyStr → Except PyErr ToolRes) (fmt : PyStr → ToolRes → PyStr)
      (n : Nat) (s s' : AgentState),
      stepIterP (some sp) chat tn te fmt n s = .ok s' →
      s'.current_step = s.current_step + (n : Int))
  ∧ (∀ (sp : PyStr) (chat : PyStr → PyStr) (tn : List PyStr)
      (te : PyStr → PyStr → Except PyErr ToolRes) (fmt : PyStr → ToolRes → PyStr)
      (fuel : Nat) (s s' : AgentState),
      s.current_step < s.max_steps →
      driverP (some sp) chat tn te fmt fuel s = .ok s' →
      s'.current_step ≤ s'.max_steps) := by
  refine ⟨by decide, ?_, ?_, ?_⟩
  · intro sp chat tn te fmt s s' h
    exact (stepP_some_ok_inc h).1
  · intro sp chat tn te fmt n s s' h
    exact stepIterP_ok_add h
  · intro sp chat tn te fmt fuel s s' hlt h
    exact driverP_bound hlt h

/-- Witness for C1: a concrete one-step run under the string prompt
lands at step 1 and within budget. -/
theorem c1_step_increment_witness :
    (initialState (pyOf "Hi")).current_step < (initialState (pyOf "Hi")).max_steps
  ∧ driverP (some (pyOf "P")) (fun _ => pyOf "hello") [] noTools noFmt 1
      (initialState (pyOf "Hi")) = .ok c1TermState
  ∧ c1TermState.current_step ≤ c1TermState.max_steps :=
  ⟨by decide, by decide,
    c1_step_increment.2.2.2 (pyOf "P") (fun _ => pyOf "hello") [] noTools noFmt 1
      (initialState (pyOf "Hi")) c1TermState (by decide) (by decide)⟩

/-- The model reply used in the C2 counterexample and witness. -/
def c2Reply : PyStr := pyOf "Action: chat_llm\nAction Input: hi"

/-- The failing tool executor used in the C2 counterexample and witness. -/
def c2FailTool : PyStr → PyStr → Except PyErr ToolRes :=
  fun _ _ => .error (.toolError (pyOf "boom"))

/-- C2 counterexample: as coded the step raises the prompt-join
TypeError before any tool runs; and even with a string system prompt, a
registered tool whose execution fails makes the step raise the tool's
exception — no state is returned, so no `success=false` entry and no
error observation are appended. -/
theorem c2_tool_failure_counterexample :
    step (fun _ => c2Reply) [pyOf "chat_llm"] c2FailTool noFmt (initialState (pyOf "q")) =
      .error (.typeError joinTypeErrMsg)
  ∧ stepP (some (pyOf "P")) (fun _ => c2Reply) [pyOf "chat_llm"] c2FailTool noFmt
      (initialState (pyOf "q")) = .error (.toolError (pyOf "boom")) := by
  constructor
  · decide
  · decide

/-- C2 (amended): a tool failure propagates out of the step unchanged —
each tool adapter logs and re-raises, `BaseTool.execute` and `_step`
add no handler — whenever the reply selects a registered tool and
carries no final-answer marker. -/
theorem c2_tool_failure_propagates :
    ∀ (sp reply tname tinput : PyStr) (tn : List PyStr)
      (te : PyStr → PyStr → Except PyErr ToolRes) (fmt : PyStr → ToolRes → PyStr)
      (s : AgentState) (e : PyErr) (p : PyStr),
      joinContents ({ role := kwSystem, content := some sp } :: s.messages) = .ok p →
      pyContains kwFinalAnswer reply = false →
      parse_tool_usage reply = (some tname, some tinput) →
      tname.isEmpty = false →
      tn.contains tname = true →
      te tname tinput = .error e →
      stepP (some sp) (fun _ => reply) tn te fmt s = .error e := by
  intro sp reply tname tinput tn te fmt s e p hj hm hp hne hreg hte
  simp only [stepP, reasonP, pyTruthy, Bool.false_eq_true, if_false]
  rw [hj]
  simp only [Except.bind, hm, Bool.false_eq_true, if_false, hp, hne, hreg,
    Bool.not_false, Bool.and_true, if_true, hte, Except.map]

/-- Witness for C2 at a concrete failing tool call. -/
theorem c2_tool_failure_propagates_witness :
    stepP (some (pyOf "P")) (fun _ => c2Reply) [pyOf "chat_llm"] c2FailTool noFmt
      (initialState (pyOf "q")) = .error (.toolError (pyOf "boom")) :=
  c2_tool_failure_propagates (pyOf "P") c2Reply (pyOf "chat_llm") (pyOf "hi")
    [pyOf "chat_llm"] c2FailTool noFmt (initialState (pyOf "q"))
    (.toolError (pyOf "boom")) (pyOf "P\nq")
    (by decide) (by decide) (by decide) (by decide) (by decide) (by decide)

/-- A state that already carries a final answer, for C5. -/
def c5State : AgentState :=
  { messages := [{ role := kwUser, content := some (pyOf "q") }]
    current_step := 1
    max_steps := 10
    tools_used := []
    intermediate_results := []
    final_answer := some (pyOf "old") }

/-- The state produced from `c5State` by a step whose reply carries a
new final-answer marker. -/
def c5Overwritten : AgentState :=
  { messages := [{ role := kwSystem, content := some (pyOf "P") },
                 { role := kwUser, content := some (pyOf "q") },
                 { role := kwAssistant, content := some (pyOf "Final Answer: new") }]
    current_step := 2
    max_steps := 10
    tools_used := []
    intermediate_results := []
    final_answer := some (pyOf "new") }

/-- C5 counterexample: invoking the step again on a state whose
`final_answer` is already set does not return a state with the same
answer.  As coded it raises the prompt-join TypeError; with the string
prompt the spec intends, a reply containing `Final Answer:` overwrites
the stored answer (`old` becomes `new`). -/
theorem c5_final_answer_counterexample :
    step (fun _ => pyOf "Final Answer: new") [] noTools noFmt c5State =
      .error (.typeError joinTypeErrMsg)
  ∧ stepP (some (pyOf "P")) (fun _ => pyOf "Final Answer: new") [] noTools noFmt c5State =
      .ok c5Overwritten
  ∧ c5State.final_answer = some (pyOf "old")
  ∧ c5Overwritten.final_answer = some (pyOf "new") := by
  refine ⟨by decide, by decide, by decide, by decide⟩

/-- C5 (amended): under a string system prompt, any step that returns a
state and whose model reply contains no `Final Answer:` marker leaves
`final_answer` exactly as it was (whether set or not). -/
theorem c5_final_answer_preserved :
    ∀ (sp reply : PyStr) (tn : List PyStr)
      (te : PyStr → PyStr → Except PyErr ToolRes) (fmt : PyStr → ToolRes → PyStr)
      (s s' : AgentState),
      pyContains kwFinalAnswer reply = false →
      stepP (some sp) (fun _ => reply) tn te fmt s = .ok s' →
      s'.final_answer = s.final_answer :=
  fun _ _ _ _ _ _ _ hm h => stepP_some_ok_final hm h

/-- Witness for C5: a no-marker step keeps the stored `old` answer. -/
theorem c5_final_answer_preserved_witness :
    stepP (some (pyOf "P")) (fun _ => pyOf "hello") [] noTools noFmt c5State =
      .ok { messages := [{ role := kwSystem, content := some (pyOf "P") },
                         { role := kwUser, content := some (pyOf "q") },
                         { role := kwAssistant, content := some (pyOf "hello") }]
            current_step := 2
            max_steps := 10
            tools_used := []
            intermediate_results := []
            final_answer := some (pyOf "old") }
  ∧ ({ messages := [{ role := kwSystem, content := some (pyOf "P") },
                    { role := kwUser, content := some (pyOf "q") },
                    { role := kwAssistant, content := some (pyOf "hello") }]
       current_step := 2
       max_steps := 10
       tools_used := []
       intermediate_results := []
       final_answer := some (pyOf "old") } : AgentState).final_answer =
      c5State.final_answer :=
  ⟨by decide,
    c5_final_answer_preserved (pyOf "P") (pyOf "hello") [] noTools noFmt c5State _
      (by decide) (by decide)⟩

/-- C8: as coded the step raises the prompt-join TypeError before the
model is even called (first conjunct); with a string system prompt, a
reply containing `Final Answer:` makes the step append the raw reply as
an assistant turn, set `final_answer` to the stripped text after the
LAST marker occurrence (`split` keeps the last segment), and increment
the step counter. -/
theorem c8_final_marker_extraction :
    step (fun _ => pyOf "Final Answer: 42") [] noTools noFmt (initialState (pyOf "q")) =
      .error (.typeError joinTypeErrMsg)
  ∧ (∀ (sp reply : PyStr) (tn : List PyStr)
      (te : PyStr → PyStr → Except PyErr ToolRes) (fmt : PyStr → ToolRes → PyStr)
      (s : AgentState) (p : PyStr),
      joinContents ({ role := kwSystem, content := some sp } :: s.messages) = .ok p →
      pyContains kwFinalAnswer reply = true →
      stepP (some sp) (fun _ => reply) tn te fmt s = .ok
        { s with
          messages := ({ role := kwSystem, content := some sp } :: s.messages) ++
            [{ role := kwAssistant, content := some reply }]
          current_step := s.current_step + 1
          final_answer := some (pyStrip ((pySplit kwFinalAnswer reply).getLastD [])) }) := by
  refine ⟨by decide, ?_⟩
  intro sp reply tn te fmt s p hj hm
  simp only [stepP, reasonP, pyTruthy, Bool.false_eq_true, if_false]
  rw [hj]
  simp only [Except.bind, hm, if_true]

/-- Witness for C8: extraction after the LAST marker on a concrete
two-marker reply. -/
theorem c8_final_marker_extraction_witness :
    stepP (some (pyOf "P")) (fun _ => pyOf "Final Answer: no\nFinal Answer: 42") []
      noTools noFmt (initialState (pyOf "q")) = .ok
      { initialState (pyOf "q") with
        messages := ({ role := kwSystem, content := some (pyOf "P") } ::
            (initialState (pyOf "q")).messages) ++
          [{ role := kwAssistant, content := some (pyOf "Final Answer: no\nFinal Answer: 42") }]
        current_step := (initialState (pyOf "q")).current_step + 1
        final_answer := some (pyStrip ((pySplit kwFinalAnswer
          (pyOf "Final Answer: no\nFinal Answer: 42")).getLastD [])) } :=
  c8_final_marker_extraction.2 (pyOf "P") (pyOf "Final Answer: no\nFinal Answer: 42") []
    noTools noFmt (initialState (pyOf "q")) (pyOf "P\nq") (by decide) (by decide)

example :
    pyStrip ((pySplit kwFinalAnswer (pyOf "Final Answer: no\nFinal Answer: 42")).getLastD []) =
      pyOf "42" := by decide

/-!
## Claims about the workflow predicate and the service layer
-/

/-- The content of the most recent assistant turn — the quantity the
spec's transition predicate talks about (spec-side definition, for
comparison with the code's `messages[-1]`). -/
def lastAssistantContent : List Message → Option PyStr
  | [] => none
  | m :: ms =>
    match lastAssistantContent ms with
    | some c => some c
    | none => if m.role = kwAssistant then m.content else none

/-- Whether the content of the most recent message (of any role)
contains the `Action:` substring — the quantity the code tests. -/
def lastMessageHasAction (s : AgentState) : Bool :=
  match pyLast s.messages with
  | none => false
  | some m => pyContains kwAction (m.content.getD [])

/-- The last message, if any, has a non-`None` content (so the `in`
test in `should_continue` cannot raise). -/
def lastContentDefined (s : AgentState) : Bool :=
  match pyLast s.messages with
  | none => true
  | some m => m.content.isSome

/-- A mid-run state whose most recent message is a tool observation
(`user` role) while the most recent assistant turn carries an
`Action:` directive. -/
def c3StateA : AgentState :=
  { messages := [{ role := kwUser, content := some (pyOf "q") },
                 { role := kwAssistant, content := some c2Reply },
                 { role := kwUser, content := some (pyOf "Obs: result") }]
    current_step := 1
    max_steps := 10
    tools_used := [pyOf "chat_llm"]
    intermediate_results := [{ payload := pyOf "r" }]
    final_answer := none }

/-- A state whose `final_answer` is set (to the empty string) while the
most recent message still carries an `Action:` directive. -/
def c3StateB : AgentState :=
  { messages := [{ role := kwUser, content := some (pyOf "q") },
                 { role := kwAssistant, content := some c2Reply }]
    current_step := 1
    max_steps := 10
    tools_used := []
    intermediate_results := []
    final_answer := some [] }

/-- C3 counterexample: the code's predicate inspects `messages[-1]`
whatever its role, not the most recent *assistant* turn.  On `c3StateA`
(last message is the tool observation) the claim says RUNNING — the
most recent assistant turn has an `Action:` marker, `final_answer` is
null, the budget is not exhausted — yet the code terminates.  On
`c3StateB` the claim says TERMINATED (`final_answer` is set, non-null)
yet the code continues, because the check is for Python truthiness and
the empty string is falsy. -/
theorem c3_predicate_counterexample :
    should_continue c3StateA = .ok kwEnd
  ∧ pyContains kwAction ((lastAssistantContent c3StateA.messages).getD []) = true
  ∧ c3StateA.final_answer = none
  ∧ c3StateA.current_step < c3StateA.max_steps
  ∧ should_continue c3StateB = .ok kwContinue
  ∧ c3StateB.final_answer = some [] := by
  refine ⟨by decide, by decide, by decide, by decide, by decide, by decide⟩

/-- C3 (amended): on states whose last message content is not `None`,
the predicate terminates exactly when `final_answer` is a non-empty
string, or the budget is exhausted, or the content of the most recent
message — of whatever role — lacks the `Action:` substring; otherwise
it continues. -/
theorem c3_predicate_characterization :
    ∀ s : AgentState, lastContentDefined s = true →
      (should_continue s = .ok kwEnd ↔
        (pyTruthy s.final_answer = true ∨ s.current_step ≥ s.max_steps ∨
          lastMessageHasAction s = false))
    ∧ (should_continue s = .ok kwContinue ↔
        (pyTruthy s.final_answer = false ∧ s.current_step < s.max_steps ∧
          lastMessageHasAction s = true)) := by
  intro s hdef
  have hne : (Except.ok kwContinue : Except PyErr PyStr) ≠ .ok kwEnd := by decide
  have hne' : (Except.ok kwEnd : Except PyErr PyStr) ≠ .ok kwContinue := by decide
  unfold should_continue lastMessageHasAction
  unfold lastContentDefined at hdef
  by_cases hT : pyTruthy s.final_answer = true
  · simp [hT, hne']
  · have hT' : pyTruthy s.final_answer = false := Bool.eq_false_iff.mpr hT
    by_cases hge : s.current_step ≥ s.max_steps
    · have hnlt : ¬ s.current_step < s.max_steps := not_lt.mpr hge
      simp [hT', hge, hnlt, hne']
    · have hlt : s.current_step < s.max_steps := lt_of_not_ge hge
      cases hlast : pyLast s.messages with
      | none => simp [hT', hge, hlast, hne']
      | some m =>
        rw [hlast] at hdef
        have hdef' : m.content.isSome = true := by simpa using hdef
        cases hc : m.content with
        | none => rw [hc] at hdef'; simp at hdef'
        | some c =>
          by_cases hact : pyContains kwAction c = true
          · simp [hT', hge, hlt, hlast, hc, hact, hne]
          · have hact' : pyContains kwAction c = false := Bool.eq_false_iff.mpr hact
            simp [hT', hge, hlast, hc, hact', hne']

/-- Witness for C3 on the concrete mid-run state `c3StateA`. -/
theorem c3_predicate_characterization_witness :
    ((should_continue c3StateA = .ok kwEnd ↔
        (pyTruthy c3StateA.final_answer = true ∨
          c3StateA.current_step ≥ c3StateA.max_steps ∨
          lastMessageHasAction c3StateA = false))
    ∧ (should_continue c3StateA = .ok kwContinue ↔
        (pyTruthy c3StateA.final_answer = false ∧
          c3StateA.current_step < c3StateA.max_steps ∧
          lastMessageHasAction c3StateA = true))) :=
  c3_predicate_characterization c3StateA (by decide)

/-- A terminal state with no final answer and no non-user turns, for
the C9 counterexample. -/
def c9State : AgentState :=
  { messages := [{ role := kwUser, content := some (pyOf "q") }]
    current_step := 10
    max_steps := 10
    tools_used := []
    intermediate_results := []
    final_answer := none }

/-- C9 counterexample: when both `final_answer` and the synthesized
non-user content are empty, `analyze` returns the *empty* answer
string — `final_answer or combined_answer.strip()` — with no non-empty
"could not produce an answer" fallback. -/
theorem c9_no_fallback_counterexample :
    reshape none c9State = .ok
      { answer := []
        success := true
        session_id := none
        steps := 1
        tools_used := []
        intermediate_results := [] }
  ∧ c9State.final_answer = none := by
  refine ⟨by decide, by decide⟩

/-- C9 (amended): the reshaping returns `final_answer` when it is a
non-empty string and otherwise the stripped newline-joined
concatenation of the non-`user` turn contents (possibly empty — no
fallback), together with metadata `success=true`,
`steps = len(messages)`, `tools_used` and `intermediate_results` taken
from the terminal state. -/
theorem c9_reshape_characterization :
    ∀ (sid : Option PyStr) (fs : AgentState) (comb : PyStr) (r : AnalyzeResult),
      combineNonUser fs.messages = .ok comb →
      reshape sid fs = .ok r →
      r.success = true ∧ r.session_id = sid ∧ r.steps = fs.messages.length ∧
      r.tools_used = fs.tools_used ∧ r.intermediate_results = fs.intermediate_results ∧
      (pyTruthy fs.final_answer = true → r.answer = fs.final_answer.getD []) ∧
      (pyTruthy fs.final_answer = false → r.answer = pyStrip comb) := by
  intro sid fs comb r hcomb hr
  unfold reshape at hr
  rw [hcomb] at hr
  simp only [Except.map] at hr
  obtain rfl := Except.ok.inj hr
  refine ⟨rfl, rfl, rfl, rfl, rfl, ?_, ?_⟩
  · intro hT
    simp [hT]
  · intro hF
    simp [hF]

/-- Witness for C9 on a concrete terminal state carrying an answer. -/
theorem c9_reshape_characterization_witness :
    ((true : Bool) = true ∧ (none : Option PyStr) = none ∧ (1 : Nat) = 1 ∧
      ([] : List PyStr) = [] ∧ ([] : List ToolRes) = [] ∧
      (pyTruthy (some (pyOf "ans")) = true →
        (pyOf "ans" : PyStr) = (some (pyOf "ans") : Option PyStr).getD []) ∧
      (pyTruthy (some (pyOf "ans")) = false →
        (pyOf "ans" : PyStr) = pyStrip [])) := by
  have h := c9_reshape_characterization none
    { messages := [{ role := kwUser, content := some (pyOf "q") }]
      current_step := 10, max_steps := 10, tools_used := [], intermediate_results := []
      final_answer := some (pyOf "ans") }
    [] { answer := pyOf "ans", success := true, session_id := none, steps := 1,
         tools_used := [], intermediate_results := [] }
    (by decide) (by decide)
  exact h
